/-
Verification of the client-side telemetry engine of the
Distributed-Network-Monitor-and-Load-Balancer dashboard.

Each definition below is a shallow embedding of a function of the React
client (monitoring-dashboard/src), translated directly from the JavaScript
source.  JS `undefined` is modelled by `Option`; JS numbers by `ℚ` (exact
rational arithmetic idealising IEEE doubles, `ℝ` where the source uses
`Math.cos`/`Math.sin`); `NaN`-producing arithmetic by `Option`-valued
operations returning `none`.
-/
import Mathlib

namespace NetworkMonitor

/-! ## ServerMetrics.jsx -/

/-- One entry of `metricsHistory[server.name]`
(ServerMetrics.jsx, lines 25–30): the sample appended on every update. -/
structure Sample where
  timestamp : ℚ
  cpu : ℚ
  memory : ℚ
  connections : ℚ
deriving DecidableEq, Repr

/-- JS property access `sample[metric]` on a history entry: the entry objects
own exactly the keys `timestamp`, `cpu`, `memory`, `connections`; any other
key reads as `undefined` (`none`). -/
def sampleField (s : Sample) (metric : String) : Option ℚ :=
  if metric = "timestamp" then some s.timestamp
  else if metric = "cpu" then some s.cpu
  else if metric = "memory" then some s.memory
  else if metric = "connections" then some s.connections
  else none

/-- JS subtraction where either operand may be `undefined`:
`undefined - x` and `x - undefined` are `NaN`, modelled as `none`. -/
def jsSub (a b : Option ℚ) : Option ℚ :=
  match a, b with
  | some x, some y => some (x - y)
  | _, _ => none

/-- The `setMetricsHistory` update (ServerMetrics.jsx line 32):
`[...history.slice(-19), newEntry]` — keep the last 19 samples and append
the new one. -/
def appendSample (history : List Sample) (newEntry : Sample) : List Sample :=
  history.drop (history.length - 19) ++ [newEntry]

/-- `calculateTrend(serverName, metric)` (ServerMetrics.jsx lines 67–74).
The first argument is `metricsHistory[serverName]`, which may be
`undefined` (`none`) when the server has no history yet.  Result `none`
models a `NaN` outcome. -/
def calculateTrend (history : Option (List Sample)) (metric : String) :
    Option ℚ :=
  match history with
  | none => some 0
  | some h =>
    if h.length < 2 then some 0
    else
      jsSub (((h.drop (h.length - 2)).get? 1).bind (fun s => sampleField s metric))
            (((h.drop (h.length - 2)).get? 0).bind (fun s => sampleField s metric))

/-- A server snapshot as consumed by `getServerStatus`
(ServerMetrics.jsx lines 41–45); every field is optional on the wire. -/
structure ServerSnap where
  healthy : Option Bool
  cpu_usage : Option ℚ
  memory_usage : Option ℚ
deriving DecidableEq, Repr

/-- JS comparison `v > c` where `v` may be `undefined`
(`undefined > c` is `false`). -/
def jsGT (v : Option ℚ) (c : ℚ) : Bool :=
  match v with
  | some x => decide (c < x)
  | none => false

/-- `getServerStatus(server)` (ServerMetrics.jsx lines 41–45). -/
def getServerStatus (server : ServerSnap) : String :=
  if server.healthy = some false then "unhealthy"
  else if jsGT server.cpu_usage 80 || jsGT server.memory_usage 85 then
    "warning"
  else "healthy"

/-! ### Helper lemmas for the history buffer -/

lemma appendSample_length_le (h : List Sample) (e : Sample) :
    (appendSample h e).length ≤ 20 := by
  simp only [appendSample, List.length_append, List.length_drop,
    List.length_singleton]
  omega

lemma drop_sub_two_append_pair (pre : List Sample) (a b : Sample) :
    (pre ++ [a, b]).drop ((pre ++ [a, b]).length - 2) = [a, b] := by
  have hlen : (pre ++ [a, b]).length - 2 = pre.length := by simp
  rw [hlen]
  exact List.drop_left pre [a, b]

/-! ## Claim theorems for ServerMetrics.jsx -/

/-- C2: the health classifier is total and deterministic, first matching rule
wins: `healthy = false` gives `"unhealthy"` whatever the other fields;
otherwise `cpu > 80` or `memory > 85` gives `"warning"`; otherwise
`"healthy"`.  In particular `{healthy:true, cpu:90}` classifies as
`"warning"` and `{healthy:true, cpu:10, memory:10}` as `"healthy"`. -/
theorem getServerStatus_spec :
    (∀ s : ServerSnap, s.healthy = some false →
      getServerStatus s = "unhealthy") ∧
    (∀ (hb : Option Bool) (c m : ℚ), hb ≠ some false → (80 < c ∨ 85 < m) →
      getServerStatus ⟨hb, some c, some m⟩ = "warning") ∧
    (∀ (hb : Option Bool) (c m : ℚ), hb ≠ some false → ¬ 80 < c → ¬ 85 < m →
      getServerStatus ⟨hb, some c, some m⟩ = "healthy") ∧
    getServerStatus ⟨some true, some 90, none⟩ = "warning" ∧
    getServerStatus ⟨some true, some 10, some 10⟩ = "healthy" := by
  refine ⟨?_, ?_, ?_, ?_, ?_⟩
  · intro s hs
    simp [getServerStatus, hs]
  · intro hb c m hne hor
    rcases hor with h | h <;> simp [getServerStatus, jsGT, hne, h]
  · intro hb c m hne hc hm
    simp [getServerStatus, jsGT, hne, hc, hm]
  · rfl
  · rfl

/-- Witness for C2 at concrete inputs. -/
theorem getServerStatus_spec_witness :
    ((⟨some false, some 90, some 90⟩ : ServerSnap).healthy = some false ∧
      getServerStatus ⟨some false, some 90, some 90⟩ = "unhealthy") ∧
    ((some true : Option Bool) ≠ some false ∧ ((80 : ℚ) < 90 ∨ (85 : ℚ) < 10) ∧
      getServerStatus ⟨some true, some 90, some 10⟩ = "warning") := by
  refine ⟨⟨rfl, getServerStatus_spec.1 _ rfl⟩,
    ⟨by decide, Or.inl (by norm_num),
      getServerStatus_spec.2.1 (some true) 90 10 (by decide)
        (Or.inl (by norm_num))⟩⟩

/-- C3: the per-entity history buffer holds at most 20 samples after any
number of appends, and an append at capacity evicts exactly the oldest
sample, preserving FIFO order of the rest (below capacity nothing is
evicted). -/
theorem appendSample_bounded_fifo :
    (∀ (updates h : List Sample), h.length ≤ 20 →
      (updates.foldl appendSample h).length ≤ 20) ∧
    (∀ (h : List Sample) (e : Sample), h.length = 20 →
      appendSample h e = h.tail ++ [e]) ∧
    (∀ (h : List Sample) (e : Sample), h.length < 20 →
      appendSample h e = h ++ [e]) := by
  refine ⟨?_, ?_, ?_⟩
  · intro updates
    induction updates with
    | nil => intro h hh; simpa using hh
    | cons u us ih =>
      intro h _
      exact ih (appendSample h u) (appendSample_length_le h u)
  · intro h e hh
    simp [appendSample, hh, List.drop_one]
  · intro h e hh
    have h0 : h.length - 19 = 0 := by omega
    simp [appendSample, h0]

/-- Witness for C3 at concrete inputs. -/
theorem appendSample_bounded_fifo_witness :
    (([] : List Sample).length ≤ 20 ∧
      ([(⟨0, 5, 5, 1⟩ : Sample)].foldl appendSample []).length ≤ 20) ∧
    ((List.replicate 20 (⟨0, 0, 0, 0⟩ : Sample)).length = 20 ∧
      appendSample (List.replicate 20 (⟨0, 0, 0, 0⟩ : Sample)) ⟨1, 1, 1, 1⟩ =
        (List.replicate 20 (⟨0, 0, 0, 0⟩ : Sample)).tail ++ [⟨1, 1, 1, 1⟩]) ∧
    (([(⟨0, 0, 0, 0⟩ : Sample)] : List Sample).length < 20 ∧
      appendSample [⟨0, 0, 0, 0⟩] (⟨1, 1, 1, 1⟩ : Sample) =
        [⟨0, 0, 0, 0⟩] ++ [⟨1, 1, 1, 1⟩]) := by
  refine ⟨⟨by simp, appendSample_bounded_fifo.1 _ _ (by simp)⟩,
    ⟨by simp, appendSample_bounded_fifo.2.1 _ _ (by simp)⟩,
    ⟨by simp, appendSample_bounded_fifo.2.2 _ _ (by simp)⟩⟩

lemma calculateTrend_cpu_pair (pre : List Sample) (a b : Sample) :
    calculateTrend (some (pre ++ [a, b])) "cpu" = some (b.cpu - a.cpu) := by
  simp [calculateTrend, drop_sub_two_append_pair, jsSub, sampleField]

/-- C5: the trend computation returns 0 when the history holds fewer than 2
samples (or does not exist yet), and otherwise the single-step delta
`last[metric] - secondLast[metric]` for each stored metric; with cpu samples
10 then 30, the cpu trend is 20. -/
theorem calculateTrend_spec :
    (∀ metric, calculateTrend none metric = some 0) ∧
    (∀ (h : List Sample) (metric : String), h.length < 2 →
      calculateTrend (some h) metric = some 0) ∧
    (∀ (pre : List Sample) (a b : Sample),
      calculateTrend (some (pre ++ [a, b])) "cpu" = some (b.cpu - a.cpu)) ∧
    (∀ (pre : List Sample) (a b : Sample),
      calculateTrend (some (pre ++ [a, b])) "memory" =
        some (b.memory - a.memory)) ∧
    (∀ (pre : List Sample) (a b : Sample),
      calculateTrend (some (pre ++ [a, b])) "connections" =
        some (b.connections - a.connections)) ∧
    calculateTrend (some [⟨0, 10, 10, 0⟩, ⟨1, 30, 10, 0⟩]) "cpu" =
      some 20 := by
  refine ⟨fun _ => rfl, ?_, fun pre a b => calculateTrend_cpu_pair pre a b,
    ?_, ?_, ?_⟩
  · intro h metric hh
    simp [calculateTrend, hh]
  · intro pre a b
    simp [calculateTrend, drop_sub_two_append_pair, jsSub, sampleField]
  · intro pre a b
    simp [calculateTrend, drop_sub_two_append_pair, jsSub, sampleField]
  · have := calculateTrend_cpu_pair [] ⟨0, 10, 10, 0⟩ ⟨1, 30, 10, 0⟩
    rw [List.nil_append] at this
    rw [this]
    norm_num

/-- Witness for C5 at concrete inputs. -/
theorem calculateTrend_spec_witness :
    (([(⟨0, 10, 10, 0⟩ : Sample)] : List Sample).length < 2 ∧
      calculateTrend (some [⟨0, 10, 10, 0⟩]) "cpu" = some 0) := by
  exact ⟨by simp, calculateTrend_spec.2.1 _ "cpu" (by simp)⟩

/-- C10: `calculateTrend` is only well-defined on the stored sample metrics;
for any history with at least 2 samples, asking for `avg_response_time`
(as the Response Time Trend detail view does) yields `NaN`
(= `none` here), not 0 and not a delta. -/
theorem calculateTrend_response_time_nan :
    ∀ (h : List Sample), 2 ≤ h.length →
      calculateTrend (some h) "avg_response_time" = none := by
  intro h hh
  have hf : ∀ s : Sample, sampleField s "avg_response_time" = none :=
    fun _ => rfl
  simp only [calculateTrend, if_neg (by omega : ¬ h.length < 2)]
  rcases hget : (h.drop (h.length - 2)).get? 1 with _ | s
  · simp [jsSub]
  · simp [hf, jsSub]

/-- Witness for C10 at a concrete input. -/
theorem calculateTrend_response_time_nan_witness :
    2 ≤ ([(⟨0, 10, 10, 0⟩ : Sample), ⟨1, 30, 10, 0⟩] : List Sample).length ∧
    calculateTrend (some [⟨0, 10, 10, 0⟩, ⟨1, 30, 10, 0⟩])
      "avg_response_time" = none :=
  ⟨by simp, calculateTrend_response_time_nan _ (by simp)⟩

/-! ## LoadBalancerStats.jsx -/

/-- One entry of `algorithmHistory` (LoadBalancerStats.jsx lines 29–34). -/
structure AlgoEntry where
  algorithm : String
  timestamp : ℚ
  healthyServers : ℚ
  totalRequests : ℚ
deriving DecidableEq, Repr

/-- JS `Math.round`: round to nearest, halves toward positive infinity. -/
def jsRound (q : ℚ) : ℤ := ⌊q + 1 / 2⌋

/-- `current = algorithmHistory[algorithmHistory.length - 1]`
(LoadBalancerStats.jsx line 94); the default is never used since the caller
guarantees at least two entries. -/
def perfCurrent (h : List AlgoEntry) : AlgoEntry :=
  h.getD (h.length - 1) ⟨"", 0, 0, 0⟩

/-- `previous = algorithmHistory[algorithmHistory.length - 2]`
(LoadBalancerStats.jsx line 95). -/
def perfPrevious (h : List AlgoEntry) : AlgoEntry :=
  h.getD (h.length - 2) ⟨"", 0, 0, 0⟩

/-- The `requestRate` field of `calculateAlgorithmPerformance()`
(LoadBalancerStats.jsx lines 84–107): 0 with fewer than 2 history entries;
otherwise `Math.round(requestChange / timeDiff)` when `timeDiff > 0`, else 0.
The other fields of the returned object are `Math.random()` mocks and are
not modelled. -/
def requestRateOf (h : List AlgoEntry) : ℚ :=
  if h.length < 2 then 0
  else if 0 < ((perfCurrent h).timestamp - (perfPrevious h).timestamp) / 1000
  then
    ((jsRound (((perfCurrent h).totalRequests - (perfPrevious h).totalRequests)
      / (((perfCurrent h).timestamp - (perfPrevious h).timestamp) / 1000)) : ℤ)
      : ℚ)
  else 0

/-! ## App.jsx -/

/-- A `traffic_update` payload or an entity snapshot from the wire,
abstracted to an identifier: only the shape of the containing lists matters
for the claims below, never the payload contents. -/
abbrev Payload := ℕ

/-- The `traffic_update` branch of `ws.onmessage` (App.jsx line 34):
`setTrafficData(prev => [...prev.slice(-50), data.payload])`. -/
def appendTraffic (log : List Payload) (payload : Payload) : List Payload :=
  log.drop (log.length - 50) ++ [payload]

/-- The JSON body of `GET /stats` as used by `fetchStats`
(App.jsx lines 49–58); `server_stats` may be absent. -/
structure StatsResp where
  total_requests : ℚ
  healthy_servers : ℚ
  total_servers : ℚ
  algorithm : String
  server_stats : Option (List Payload)
deriving DecidableEq, Repr

/-- The local component state of `App` (App.jsx lines 9–13). -/
structure AppState where
  stats : Option StatsResp
  servers : List Payload
  algorithm : String
  trafficData : List Payload
  isSimulating : Bool
deriving DecidableEq, Repr

/-- `fetchStats()` (App.jsx lines 49–58) applied to the response it
received: `none` models a thrown fetch/parse error (caught, no state
change); on success it sets `stats` and `servers` (the latter defaulting to
`[]` when `server_stats` is absent). -/
def fetchStatsApply (st : AppState) (resp : Option StatsResp) : AppState :=
  match resp with
  | none => st
  | some d => { st with stats := some d, servers := d.server_stats.getD [] }

/-- `changeAlgorithm(newAlgo)` (App.jsx lines 70–81) applied to the
responses of its two network calls: `resp` is the parsed
`GET /algorithm/{name}` success flag (`none` models a thrown error), and
`statsResp` is what the `fetchStats()` it triggers on success receives. -/
def changeAlgorithm (st : AppState) (newAlgo : String)
    (resp : Option Bool) (statsResp : Option StatsResp) : AppState :=
  match resp with
  | none => st
  | some success =>
    if success then fetchStatsApply { st with algorithm := newAlgo } statsResp
    else st

/-! ### Helper lemmas for the rate computation -/

lemma perfCurrent_append (pre : List AlgoEntry) (p c : AlgoEntry) :
    perfCurrent (pre ++ [p, c]) = c := by
  unfold perfCurrent
  have hlen : (pre ++ [p, c]).length - 1 = pre.length + 1 := by simp
  rw [hlen, List.getD_append_right _ _ _ _ (by omega)]
  simp

lemma perfPrevious_append (pre : List AlgoEntry) (p c : AlgoEntry) :
    perfPrevious (pre ++ [p, c]) = p := by
  unfold perfPrevious
  have hlen : (pre ++ [p, c]).length - 2 = pre.length := by simp
  rw [hlen, List.getD_append_right _ _ _ _ (by omega)]
  simp

lemma appendTraffic_length_le (log : List Payload) (p : Payload) :
    (appendTraffic log p).length ≤ 51 := by
  simp only [appendTraffic, List.length_append, List.length_drop,
    List.length_singleton]
  omega

/-! ## Claim theorems for LoadBalancerStats.jsx and App.jsx -/

/-- C1 counterexample: on the spec's own regression example — cumulative
counters `(t=0, total=300)` then `(t=1s, total=100)` — the windowed rate is
`-200`, not the claimed clamped `0`; the computation can return a negative
rate. -/
theorem requestRateOf_negative_on_regression :
    requestRateOf [⟨"round_robin", 0, 0, 300⟩, ⟨"round_robin", 1000, 0, 100⟩]
        = -200 ∧
    ¬ (0 : ℚ) ≤
      requestRateOf
        [⟨"round_robin", 0, 0, 300⟩, ⟨"round_robin", 1000, 0, 100⟩] := by
  have h : requestRateOf
      [⟨"round_robin", 0, 0, 300⟩, ⟨"round_robin", 1000, 0, 100⟩] = -200 := by
    have hc := perfCurrent_append [] ⟨"round_robin", 0, 0, 300⟩
      ⟨"round_robin", 1000, 0, 100⟩
    have hp := perfPrevious_append [] ⟨"round_robin", 0, 0, 300⟩
      ⟨"round_robin", 1000, 0, 100⟩
    rw [List.nil_append] at hc hp
    rw [requestRateOf, if_neg (by simp), hc, hp]
    norm_num [jsRound]
  exact ⟨h, by rw [h]; norm_num⟩

/-- C1 (amended): given the two most recent cumulative snapshots, the rate
is `Math.round((current.totalRequests - previous.totalRequests) /
((current.timestamp - previous.timestamp)/1000))` whenever the time delta
is positive, `0` when it is not or when fewer than two snapshots exist; the
result is NOT clamped to be nonnegative, so a counter regression yields a
negative rate (the spec's positive example `(t=0,total=100),(t=2s,total=300)`
still gives `100`). -/
theorem requestRateOf_spec :
    (∀ h : List AlgoEntry, h.length < 2 → requestRateOf h = 0) ∧
    (∀ (pre : List AlgoEntry) (p c : AlgoEntry),
      0 < (c.timestamp - p.timestamp) / 1000 →
      requestRateOf (pre ++ [p, c]) =
        ((jsRound ((c.totalRequests - p.totalRequests) /
          ((c.timestamp - p.timestamp) / 1000)) : ℤ) : ℚ)) ∧
    (∀ (pre : List AlgoEntry) (p c : AlgoEntry),
      ¬ 0 < (c.timestamp - p.timestamp) / 1000 →
      requestRateOf (pre ++ [p, c]) = 0) ∧
    requestRateOf [⟨"rr", 0, 0, 100⟩, ⟨"rr", 2000, 0, 300⟩] = 100 := by
  refine ⟨?_, ?_, ?_, ?_⟩
  · intro h hh
    simp [requestRateOf, hh]
  · intro pre p c hpos
    rw [requestRateOf, if_neg (by simp), perfCurrent_append, perfPrevious_append,
      if_pos hpos]
  · intro pre p c hneg
    rw [requestRateOf, if_neg (by simp), perfCurrent_append, perfPrevious_append,
      if_neg hneg]
  · have hc := perfCurrent_append [] ⟨"rr", 0, 0, 100⟩ ⟨"rr", 2000, 0, 300⟩
    have hp := perfPrevious_append [] ⟨"rr", 0, 0, 100⟩ ⟨"rr", 2000, 0, 300⟩
    rw [List.nil_append] at hc hp
    rw [requestRateOf, if_neg (by simp), hc, hp, if_pos (by norm_num)]
    norm_num [jsRound]

/-- Witness for C1 (amended) at concrete inputs. -/
theorem requestRateOf_spec_witness :
    (([] : List AlgoEntry).length < 2 ∧ requestRateOf [] = 0) ∧
    ((0 : ℚ) <
        ((⟨"a", 2000, 0, 300⟩ : AlgoEntry).timestamp -
          (⟨"a", 0, 0, 100⟩ : AlgoEntry).timestamp) / 1000 ∧
      requestRateOf ([] ++ [⟨"a", 0, 0, 100⟩, ⟨"a", 2000, 0, 300⟩]) =
        ((jsRound (((⟨"a", 2000, 0, 300⟩ : AlgoEntry).totalRequests -
            (⟨"a", 0, 0, 100⟩ : AlgoEntry).totalRequests) /
          (((⟨"a", 2000, 0, 300⟩ : AlgoEntry).timestamp -
            (⟨"a", 0, 0, 100⟩ : AlgoEntry).timestamp) / 1000)) : ℤ) : ℚ)) :=
  ⟨⟨by simp, requestRateOf_spec.1 [] (by simp)⟩,
    ⟨by norm_num, requestRateOf_spec.2.1 [] ⟨"a", 0, 0, 100⟩
      ⟨"a", 2000, 0, 300⟩ (by norm_num)⟩⟩

set_option maxRecDepth 4000 in
/-- C6 counterexample: after 51 consecutive `traffic_update` messages the
rolling traffic log holds 51 entries, exceeding the claimed bound of 50. -/
theorem appendTraffic_exceeds_fifty :
    ((List.range 51).foldl appendTraffic []).length = 51 ∧
    ¬ ((List.range 51).foldl appendTraffic []).length ≤ 50 := by
  constructor
  · decide
  · decide

/-- C6 (amended): the rolling traffic log holds at most 51 entries after any
sequence of `traffic_update` messages: each arriving payload is appended
after the previous log is trimmed to its last 50 entries, so at 51 entries
an append evicts exactly the oldest entry. -/
theorem appendTraffic_bounded :
    (∀ (msgs log : List Payload), log.length ≤ 51 →
      (msgs.foldl appendTraffic log).length ≤ 51) ∧
    (∀ (log : List Payload) (p : Payload), log.length = 51 →
      appendTraffic log p = log.tail ++ [p]) := by
  constructor
  · intro msgs
    induction msgs with
    | nil => intro log hl; simpa using hl
    | cons m ms ih =>
      intro log _
      exact ih (appendTraffic log m) (appendTraffic_length_le log m)
  · intro log p hl
    simp [appendTraffic, hl, List.drop_one]

/-- Witness for C6 (amended) at concrete inputs. -/
theorem appendTraffic_bounded_witness :
    (([] : List Payload).length ≤ 51 ∧
      ((List.range 3).foldl appendTraffic []).length ≤ 51) ∧
    ((List.range 51).length = 51 ∧
      appendTraffic (List.range 51) 99 = (List.range 51).tail ++ [99]) :=
  ⟨⟨by simp, appendTraffic_bounded.1 (List.range 3) [] (by simp)⟩,
    ⟨by simp, appendTraffic_bounded.2 (List.range 51) 99 (by simp)⟩⟩

/-- C9 counterexample: when the algorithm-change command succeeds, the
operation does not only change the algorithm label — the `fetchStats()` it
triggers also overwrites `stats` (and `servers`): starting from a state with
`stats = none`, a successful change leaves `stats ≠ none`. -/
theorem changeAlgorithm_changes_stats :
    (changeAlgorithm ⟨none, [], "round_robin", [], false⟩ "least_connections"
        (some true) (some ⟨10, 3, 3, "least_connections", some [7]⟩)).stats ≠
      (⟨none, [], "round_robin", [], false⟩ : AppState).stats := by
  simp [changeAlgorithm, fetchStatsApply]

/-- C9 (amended): on a successful command the algorithm label is updated and
the triggered stats refetch — when it succeeds — additionally overwrites
`stats` and `servers` from the response; `trafficData` and `isSimulating`
never change; and when the command does not succeed (error or
`success:false`) no local state changes at all. -/
theorem changeAlgorithm_spec :
    ∀ (st : AppState) (a : String) (resp : Option Bool)
      (sr : Option StatsResp),
      (changeAlgorithm st a resp sr).trafficData = st.trafficData ∧
      (changeAlgorithm st a resp sr).isSimulating = st.isSimulating ∧
      (resp = some true → sr = none →
        changeAlgorithm st a resp sr = { st with algorithm := a }) ∧
      (∀ d, resp = some true → sr = some d →
        changeAlgorithm st a resp sr =
          { st with algorithm := a, stats := some d,
                    servers := d.server_stats.getD [] }) ∧
      (resp ≠ some true → changeAlgorithm st a resp sr = st) := by
  intro st a resp sr
  rcases resp with _ | b
  · simp [changeAlgorithm]
  · rcases b with _ | _
    · simp [changeAlgorithm]
    · rcases sr with _ | d <;>
        simp [changeAlgorithm, fetchStatsApply]

/-- Witness for C9 (amended) at concrete inputs. -/
theorem changeAlgorithm_spec_witness :
    ((some true : Option Bool) = some true ∧
      (some (⟨10, 3, 3, "ip_hash", some [7]⟩ : StatsResp)) =
        some ⟨10, 3, 3, "ip_hash", some [7]⟩ ∧
      changeAlgorithm ⟨none, [], "round_robin", [9], true⟩ "ip_hash"
          (some true) (some ⟨10, 3, 3, "ip_hash", some [7]⟩) =
        { (⟨none, [], "round_robin", [9], true⟩ : AppState) with
            algorithm := "ip_hash",
            stats := some ⟨10, 3, 3, "ip_hash", some [7]⟩,
            servers := (some [7] : Option (List Payload)).getD [] }) ∧
    ((some false : Option Bool) ≠ some true ∧
      changeAlgorithm ⟨none, [], "round_robin", [9], true⟩ "ip_hash"
          (some false) none = ⟨none, [], "round_robin", [9], true⟩) :=
  ⟨⟨rfl, rfl,
      (changeAlgorithm_spec ⟨none, [], "round_robin", [9], true⟩ "ip_hash"
        (some true) (some ⟨10, 3, 3, "ip_hash", some [7]⟩)).2.2.2.1
        ⟨10, 3, 3, "ip_hash", some [7]⟩ rfl rfl⟩,
    ⟨by simp,
      (changeAlgorithm_spec ⟨none, [], "round_robin", [9], true⟩ "ip_hash"
        (some false) none).2.2.2.2 (by simp)⟩⟩

/-! ## NetworkTopology.jsx — traffic event scheduler

The traffic animation effect (NetworkTopology.jsx lines 26–43) runs a
500ms `setInterval`; each tick (with a non-empty server list) appends one
event `{id: Date.now(), from, to}` to the `traffic` state and schedules a
`setTimeout` that, 2000ms later, filters that event's id out of the state.
We model a complete run by the list `cs` of events ever created, where an
event's `id` is its creation time in ms (as in the source), and replay the
event loop millisecond by millisecond: at each instant the due removal
callbacks fire first (they were scheduled 2000ms earlier than any creation
due at the same instant), then the due creations. -/

/-- An entry of the `traffic` state (NetworkTopology.jsx lines 29–33). -/
structure TrafficEvent where
  id : ℕ
  fromNode : String
  toNode : String
deriving DecidableEq, Repr

/-- `setTraffic(prev => [...prev, { id, from, to }])`
(NetworkTopology.jsx line 33). -/
def addEvent (s : List TrafficEvent) (e : TrafficEvent) : List TrafficEvent :=
  s ++ [e]

/-- `setTraffic(prev => prev.filter(t => t.id !== id))`
(NetworkTopology.jsx line 37): the removal callback for id `i`. -/
def removeEvent (s : List TrafficEvent) (i : ℕ) : List TrafficEvent :=
  s.filter (fun t => t.id ≠ i)

/-- The removal callbacks due at instant `m`: one was scheduled for
`id + 2000` by every creation at `id` (NetworkTopology.jsx lines 36–38). -/
def dueRemovals (cs : List TrafficEvent) (m : ℕ) : List ℕ :=
  (cs.filter (fun c => c.id + 2000 = m)).map (fun c => c.id)

/-- The creations due at instant `m` (an event is created at the instant
recorded as its `id`, since `id = Date.now()`). -/
def dueCreations (cs : List TrafficEvent) (m : ℕ) : List TrafficEvent :=
  cs.filter (fun c => c.id = m)

/-- One instant of the event loop: fire the due removal callbacks, then the
due creations. -/
def stepAt (cs : List TrafficEvent) (m : ℕ) (s : List TrafficEvent) :
    List TrafficEvent :=
  (dueCreations cs m).foldl addEvent ((dueRemovals cs m).foldl removeEvent s)

/-- The `traffic` state at instant `t`, starting from the initial empty
state (`useState([])`, NetworkTopology.jsx line 7) and replaying every
instant up to and including `t`. -/
def trafficAt (cs : List TrafficEvent) : ℕ → List TrafficEvent
  | 0 => stepAt cs 0 []
  | t + 1 => stepAt cs (t + 1) (trafficAt cs t)

/-! ### Helper lemmas for the scheduler -/

lemma mem_foldl_removeEvent (ids : List ℕ) (s : List TrafficEvent)
    (x : TrafficEvent) :
    x ∈ ids.foldl removeEvent s ↔ x ∈ s ∧ x.id ∉ ids := by
  induction ids generalizing s with
  | nil => simp
  | cons i is ih =>
    rw [List.foldl_cons, ih]
    constructor
    · rintro ⟨hx, hni⟩
      rw [removeEvent, List.mem_filter] at hx
      refine ⟨hx.1, ?_⟩
      simp only [List.mem_cons, not_or]
      exact ⟨by simpa using hx.2, hni⟩
    · rintro ⟨hx, hni⟩
      simp only [List.mem_cons, not_or] at hni
      exact ⟨List.mem_filter.2 ⟨hx, by simpa using hni.1⟩, hni.2⟩

lemma mem_foldl_addEvent (es : List TrafficEvent) (s : List TrafficEvent)
    (x : TrafficEvent) :
    x ∈ es.foldl addEvent s ↔ x ∈ s ∨ x ∈ es := by
  induction es generalizing s with
  | nil => simp
  | cons e es ih =>
    rw [List.foldl_cons, ih]
    simp only [addEvent, List.mem_append, List.mem_singleton, List.mem_cons]
    tauto

lemma mem_stepAt (cs : List TrafficEvent) (m : ℕ) (s : List TrafficEvent)
    (x : TrafficEvent) :
    x ∈ stepAt cs m s ↔
      (x ∈ s ∧ x.id ∉ dueRemovals cs m) ∨ (x ∈ cs ∧ x.id = m) := by
  rw [stepAt, mem_foldl_addEvent, mem_foldl_removeEvent]
  have : x ∈ dueCreations cs m ↔ x ∈ cs ∧ x.id = m := by
    simp [dueCreations]
  rw [this]

lemma mem_dueRemovals_iff (cs : List TrafficEvent) (m : ℕ) (x : TrafficEvent)
    (hx : x ∈ cs) : x.id ∈ dueRemovals cs m ↔ x.id + 2000 = m := by
  constructor
  · intro h
    simp only [dueRemovals, List.mem_map, List.mem_filter] at h
    obtain ⟨c, ⟨_, hc⟩, hid⟩ := h
    rw [← hid]
    exact of_decide_eq_true hc
  · intro h
    simp only [dueRemovals, List.mem_map, List.mem_filter]
    exact ⟨x, ⟨hx, by simpa using h⟩, rfl⟩

/-- Membership characterisation of the replayed traffic state: an event is
in the active set at instant `t` exactly when it was created at or before
`t` and its 2000ms TTL has not yet elapsed. -/
lemma mem_trafficAt (cs : List TrafficEvent) (t : ℕ) (x : TrafficEvent) :
    x ∈ trafficAt cs t ↔ x ∈ cs ∧ x.id ≤ t ∧ t < x.id + 2000 := by
  induction t with
  | zero =>
    rw [trafficAt, mem_stepAt]
    constructor
    · rintro (⟨hx, _⟩ | ⟨hx, hid⟩)
      · simp at hx
      · exact ⟨hx, by omega, by omega⟩
    · rintro ⟨hx, h1, _⟩
      exact Or.inr ⟨hx, by omega⟩
  | succ t ih =>
    rw [trafficAt, mem_stepAt, ih]
    constructor
    · rintro (⟨⟨hx, h1, h2⟩, hnr⟩ | ⟨hx, hid⟩)
      · rw [mem_dueRemovals_iff cs (t + 1) x hx] at hnr
        exact ⟨hx, by omega, by omega⟩
      · exact ⟨hx, by omega, by omega⟩
    · rintro ⟨hx, h1, h2⟩
      by_cases hid : x.id = t + 1
      · exact Or.inr ⟨hx, hid⟩
      · refine Or.inl ⟨⟨hx, by omega, by omega⟩, ?_⟩
        rw [mem_dueRemovals_iff cs (t + 1) x hx]
        omega

/-! ## Claim theorems for the traffic event scheduler -/

/-- C7: every traffic event created at time `t` is still in the active set
at `t+1999`, is absent at `t+2001`, and its removal callback never removes
any other in-flight event (events with a different id are untouched by the
filter). -/
theorem trafficEvent_ttl_window :
    ∀ (cs : List TrafficEvent) (e : TrafficEvent), e ∈ cs →
      e ∈ trafficAt cs (e.id + 1999) ∧
      e ∉ trafficAt cs (e.id + 2001) ∧
      (∀ (s : List TrafficEvent) (x : TrafficEvent), x.id ≠ e.id →
        (x ∈ removeEvent s e.id ↔ x ∈ s)) := by
  intro cs e he
  refine ⟨?_, ?_, ?_⟩
  · rw [mem_trafficAt]
    exact ⟨he, by omega, by omega⟩
  · rw [mem_trafficAt]
    rintro ⟨_, _, h⟩
    omega
  · intro s x hx
    rw [removeEvent, List.mem_filter]
    constructor
    · exact fun h => h.1
    · exact fun h => ⟨h, by simpa using hx⟩

/-- Witness for C7 at a concrete input. -/
theorem trafficEvent_ttl_window_witness :
    ((⟨500, "lb", "server-1"⟩ : TrafficEvent) ∈
        [(⟨500, "lb", "server-1"⟩ : TrafficEvent)]) ∧
    ((⟨500, "lb", "server-1"⟩ : TrafficEvent) ∈
        trafficAt [⟨500, "lb", "server-1"⟩] 2499 ∧
      (⟨500, "lb", "server-1"⟩ : TrafficEvent) ∉
        trafficAt [⟨500, "lb", "server-1"⟩] 2501 ∧
      (∀ (s : List TrafficEvent) (x : TrafficEvent), x.id ≠ 500 →
        (x ∈ removeEvent s 500 ↔ x ∈ s))) :=
  ⟨List.mem_singleton.2 rfl,
    trafficEvent_ttl_window [⟨500, "lb", "server-1"⟩] ⟨500, "lb", "server-1"⟩
      (List.mem_singleton.2 rfl)⟩

/-- The timers owned by the traffic animation effect: `interval` is the
500ms `setInterval` handle (NetworkTopology.jsx line 27), `removalTimers`
the pending per-event `setTimeout` handles, identified by the event id each
will remove (lines 36–38; the source never stores these handles). -/
structure SchedulerTimers where
  interval : Bool
  removalTimers : List ℕ
deriving DecidableEq, Repr

/-- The effect starts with a live interval and no pending removals. -/
def startScheduler : SchedulerTimers := ⟨true, []⟩

/-- A tick at instant `m` while the interval is live: the created event's
removal is scheduled (`setTimeout(..., 2000)`, lines 36–38). -/
def tickScheduler (ts : SchedulerTimers) (m : ℕ) : SchedulerTimers :=
  if ts.interval then ⟨true, ts.removalTimers ++ [m]⟩ else ts

/-- A pending removal timer for id `m` fires and is no longer pending. -/
def fireRemovalTimer (ts : SchedulerTimers) (m : ℕ) : SchedulerTimers :=
  ⟨ts.interval, ts.removalTimers.filter (fun i => i ≠ m)⟩

/-- The effect's cleanup (NetworkTopology.jsx line 42):
`return () => clearInterval(interval)` — only the interval is cleared. -/
def cleanupScheduler (ts : SchedulerTimers) : SchedulerTimers :=
  ⟨false, ts.removalTimers⟩

/-- C8 counterexample: stopping the scheduler does not cancel pending
per-event removal timers.  Start the effect, tick once at t=500 (creating
an event and scheduling its removal), then run the cleanup: the removal
timer for id 500 is still pending, so its callback still fires later. -/
theorem cleanupScheduler_leaves_pending :
    (cleanupScheduler (tickScheduler startScheduler 500)).removalTimers =
        [500] ∧
    ¬ (cleanupScheduler (tickScheduler startScheduler 500)).removalTimers
        = [] := by
  constructor
  · rfl
  · decide

/-- C8 (amended): stopping the traffic-event scheduler cancels only the
500ms tick interval; the pending per-event removal timers are left exactly
as they were, so every previously scheduled removal callback remains
scheduled (and still fires at its TTL). -/
theorem cleanupScheduler_spec :
    ∀ ts : SchedulerTimers,
      (cleanupScheduler ts).interval = false ∧
      (cleanupScheduler ts).removalTimers = ts.removalTimers ∧
      ∀ m : ℕ, fireRemovalTimer (cleanupScheduler ts) m =
        ⟨false, ts.removalTimers.filter (fun i => i ≠ m)⟩ := by
  intro ts
  exact ⟨rfl, rfl, fun m => rfl⟩

/-! ## NetworkTopology.jsx — layout

`calculatePositions()` (NetworkTopology.jsx lines 46–67) builds the
positions dictionary: the load balancer at the viewport centre, each server
`index` of `n` on a circle of radius `min(width, height) * 0.3` at angle
`(index * 2 * π) / n`.  We model the dictionary as the association list in
insertion order ("lb" first, then the servers in list order), and
`Math.cos`/`Math.sin` by their exact real counterparts. -/

noncomputable def calculatePositions (servers : List String)
    (width height : ℝ) : List (String × ℝ × ℝ) :=
  ("lb", width / 2, height / 2) ::
    servers.enum.map (fun p =>
      (p.2,
        width / 2 + min width height * 0.3 *
          Real.cos ((p.1 * 2 * Real.pi) / servers.length),
        height / 2 + min width height * 0.3 *
          Real.sin ((p.1 * 2 * Real.pi) / servers.length)))

/-! ## Claim theorem for the layout -/

/-- C4: the layout is a pure deterministic function of the ordered entity
list and viewport size; the hub sits at `(width/2, height/2)`; entity `i`
of `n` sits at angle `2π·i/n` on a circle of radius `0.3·min(width,height)`
around the hub; and with 3 entities in a 300×300 viewport, entity 0 lands
due east of the centre at distance 90: `(150 + 90, 150)`. -/
theorem calculatePositions_spec :
    (∀ (servers : List String) (w h : ℝ),
      calculatePositions servers w h = calculatePositions servers w h) ∧
    (∀ (servers : List String) (w h : ℝ),
      (calculatePositions servers w h).head? = some ("lb", w / 2, h / 2)) ∧
    (∀ (servers : List String) (w h : ℝ) (i : ℕ) (name : String),
      servers[i]? = some name →
      (calculatePositions servers w h)[i + 1]? =
        some (name,
          w / 2 + 0.3 * min w h *
            Real.cos (2 * Real.pi * i / servers.length),
          h / 2 + 0.3 * min w h *
            Real.sin (2 * Real.pi * i / servers.length))) ∧
    (calculatePositions ["server-1", "server-2", "server-3"] 300 300)[1]? =
      some ("server-1", 150 + 90, 150) := by
  have key : ∀ (servers : List String) (w h : ℝ) (i : ℕ) (name : String),
      servers[i]? = some name →
      (calculatePositions servers w h)[i + 1]? =
        some (name,
          w / 2 + 0.3 * min w h *
            Real.cos (2 * Real.pi * i / servers.length),
          h / 2 + 0.3 * min w h *
            Real.sin (2 * Real.pi * i / servers.length)) := by
    intro servers w h i name hname
    rw [calculatePositions, List.getElem?_cons_succ, List.getElem?_map,
      List.getElem?_enum, hname]
    have hangle : ((i : ℝ) * 2 * Real.pi) / servers.length =
        2 * Real.pi * i / servers.length := by ring
    have hrad : min w h * 0.3 = 0.3 * min w h := by ring
    simp only [Option.map_some']
    rw [hangle, hrad]
  refine ⟨fun _ _ _ => rfl, fun _ _ _ => rfl, key, ?_⟩
  have h0 := key ["server-1", "server-2", "server-3"] 300 300 0 "server-1" rfl
  rw [h0]
  norm_num [Real.cos_zero, Real.sin_zero]

/-- Witness for C4 at a concrete input. -/
theorem calculatePositions_spec_witness :
    (["s1", "s2"][1]? = some "s2") ∧
    (calculatePositions ["s1", "s2"] 200 100)[2]? =
      some ("s2",
        (200 : ℝ) / 2 + 0.3 * min (200 : ℝ) 100 *
          Real.cos (2 * Real.pi * 1 / (["s1", "s2"] : List String).length),
        (100 : ℝ) / 2 + 0.3 * min (200 : ℝ) 100 *
          Real.sin (2 * Real.pi * 1 / (["s1", "s2"] : List String).length)) :=
  ⟨rfl, by
    have := calculatePositions_spec.2.2.1 ["s1", "s2"] 200 100 1 "s2" rfl
    exact_mod_cast this⟩

end NetworkMonitor
